import Mathlib

/-!
Verification of the deepshell repository: a shallow embedding of the
`ChatSession` persistence/truncation engine (`handlers/chat_handler.py`)
and the `DeepSeekClient` resilient completion client (`llm.py`),
together with theorems settling the specified behavioural claims.
-/

namespace Deepshell

/-! ## Definitions -/

/-! ### ChatSession messages and truncation -/

/-- A stored chat message: `{"role": ..., "content": ..., "timestamp": ...}`
as built by `ChatSession.add_message`.  Timestamps are abstracted to `Nat`. -/
structure Msg where
  role : String
  content : String
  timestamp : Nat
deriving DecidableEq, Repr

/-- Python slice `xs[i:]` for an `Int` index `i` (negative indices count from
the end and clamp at the start, exactly as in Python; in particular
`xs[0:] = xs`, and `-(0) = 0` so `xs[-0:] = xs`). -/
def pySliceFrom (xs : List Msg) (i : Int) : List Msg :=
  if i < 0 then xs.drop ((xs.length + i).toNat)
  else xs.drop i.toNat

/-- `ChatSession._truncate_messages`: if `len(messages) <= max_length`, no-op;
otherwise, if the first message has role `"system"`, the list becomes
`[messages[0]] + messages[-(max_length - 1):]`, else `messages[-max_length:]`.
The slice arguments are computed in `Int`, as Python computes them. -/
def truncateMessages (maxLength : Nat) (messages : List Msg) : List Msg :=
  if messages.length ≤ maxLength then messages
  else
    match messages with
    | [] => []
    | first :: _ =>
      if first.role = "system" then
        first :: pySliceFrom messages (-((maxLength : Int) - 1))
      else
        pySliceFrom messages (-(maxLength : Int))

/-- `ChatSession.add_message` restricted to its effect on the in-memory list:
append the new message, then truncate.  (The save step is modelled separately
with the file effects.) -/
def addMessage (maxLength : Nat) (messages : List Msg)
    (role content : String) (t : Nat) : List Msg :=
  truncateMessages maxLength (messages ++ [⟨role, content, t⟩])

/-! ### ChatSession file effects -/

/-- A file-system effect performed by `ChatSession`. -/
inductive FileOp
  | mkdirCache
  | readFile (name : String)
  | writeFile (name : String)
  | deleteFile (name : String)
deriving DecidableEq, Repr

/-- The state of a `ChatSession` object. -/
structure SessionSt where
  sessionId : String
  maxLength : Nat
  isTemp : Bool
  sessionFile : Option String
  messages : List Msg
deriving Repr

/-- `ChatSession.__init__`: `is_temp` is `session_id == "temp"`.  A temp
session gets no file and an empty list, without touching the file system.
A persistent session creates the cache directory, points at
`<session_id>.json`, and loads it when it exists (`fileExists` and `loaded`
model the environment: whether the file exists and what `_load_messages`
leaves in `self.messages`). -/
def sessionInit (sessionId : String) (maxLength : Nat)
    (fileExists : Bool) (loaded : List Msg) : SessionSt × List FileOp :=
  if sessionId = "temp" then
    (⟨sessionId, maxLength, true, none, []⟩, [])
  else
    let file := sessionId ++ ".json"
    (⟨sessionId, maxLength, false, some file,
        if fileExists then loaded else []⟩,
      FileOp.mkdirCache ::
        if fileExists then [FileOp.readFile file] else [])

/-- `ChatSession._save_messages`: returns immediately for an ephemeral
session or a missing file path, otherwise writes the session file. -/
def saveMessages (st : SessionSt) : List FileOp :=
  if st.isTemp then []
  else
    match st.sessionFile with
    | none => []
    | some f => [FileOp.writeFile f]

/-- `ChatSession.add_message` with its file effects: append, truncate, then
`_save_messages`. -/
def addMessageOp (st : SessionSt) (role content : String) (t : Nat) :
    SessionSt × List FileOp :=
  let st' := { st with
    messages := addMessage st.maxLength st.messages role content t }
  (st', saveMessages st')

/-- `ChatSession.clear`: empties the in-memory list, and deletes the backing
file when the session is not ephemeral, has a file path, and the file
exists. -/
def clearOp (st : SessionSt) (fileExists : Bool) : SessionSt × List FileOp :=
  let st' := { st with messages := [] }
  if st.isTemp then (st', [])
  else
    match st.sessionFile with
    | none => (st', [])
    | some f => if fileExists then (st', [FileOp.deleteFile f]) else (st', [])

/-- One mutation call on a `ChatSession`. -/
inductive SessionCmd
  | add (role content : String) (t : Nat)
  | clearCmd (fileExists : Bool)

/-- Run a sequence of `add_message` / `clear` calls, collecting all file
effects. -/
def runSession (st : SessionSt) : List SessionCmd → SessionSt × List FileOp
  | [] => (st, [])
  | c :: cs =>
    let step := match c with
      | .add role content t => addMessageOp st role content t
      | .clearCmd fe => clearOp st fe
    let next := runSession step.1 cs
    (next.1, step.2 ++ next.2)

/-! ### ChatHandler turns -/

/-- The chat-handler view of a persistent session: the in-memory list and
the content persisted in the session file (`none` = no file yet). -/
structure HState where
  messages : List Msg
  fileContent : Option (List Msg)
deriving DecidableEq, Repr

/-- `add_message` on a persistent session as seen by the handler: truncated
append followed by a save of the new list. -/
def addMessageH (maxLength : Nat) (st : HState) (role content : String)
    (t : Nat) : HState :=
  let msgs := addMessage maxLength st.messages role content t
  ⟨msgs, some msgs⟩

/-- Python `str.strip()`: remove whitespace from both ends. -/
def pyStrip (s : String) : String :=
  ⟨((s.data.dropWhile Char.isWhitespace).reverse.dropWhile
      Char.isWhitespace).reverse⟩

/-- How the completion call of a chat turn ends. -/
inductive CompletionOutcome
  | success (content : String)
  | interrupted
  | failed (msg : String)

/-- `ChatHandler.handle` for one chat turn.  An empty (all-whitespace) prompt
is rejected up front.  Otherwise `make_messages` appends and persists the
user message BEFORE the completion call; a `KeyboardInterrupt` raised during
the completion (or stream consumption) is caught without touching the
session further, as is any other exception; on success the assistant message
is appended and persisted. -/
def handleTurn (maxLength : Nat) (st : HState) (prompt : String)
    (outcome : CompletionOutcome) (t1 t2 : Nat) : HState :=
  if pyStrip prompt = "" then st
  else
    let st1 := addMessageH maxLength st "user" prompt t1
    match outcome with
    | .success content => addMessageH maxLength st1 "assistant" content t2
    | .interrupted => st1
    | .failed _ => st1

/-! ### Session file loading -/

/-- A decoded JSON value, as returned by `json.load`. -/
inductive Json
  | jnull
  | jbool (b : Bool)
  | jnum (n : Int)
  | jstr (s : String)
  | jarr (elems : List Json)
  | jobj (fields : List (String × Json))

/-- Python `dict.get(key, default)` on a JSON object's field list. -/
def objGet (fields : List (String × Json)) (key : String) (dflt : Json) :
    Json :=
  match fields.find? (fun p => p.1 == key) with
  | some p => p.2
  | none => dflt

/-- The observable state of an existing session file: opening/reading it
raises `IOError`, `json.load` raises `JSONDecodeError`, or `json.load`
returns a value. -/
inductive FileData
  | unreadable
  | undecodable
  | decoded (value : Json)

/-- `ChatSession._load_messages`: `IOError` and `JSONDecodeError` are caught
(a warning is printed) and leave an empty message list; on a decoded value
the code evaluates `data.get("messages", [])`, which is only defined when
the value is an object — on any other top-level JSON value Python raises
`AttributeError`, which is NOT in the `except` clause and escapes to the
caller (modelled by `.error`). -/
def loadMessages : FileData → Except String Json
  | .unreadable => .ok (.jarr [])
  | .undecodable => .ok (.jarr [])
  | .decoded (.jobj fields) => .ok (objGet fields "messages" (.jarr []))
  | .decoded _ => .error "AttributeError"

/-! ### DeepSeekClient: streaming chunks -/

/-- The `delta` of a streaming chunk's first choice: an optional text content
and the (possibly empty) list of tool-call function names. -/
structure Delta where
  content : Option String
  tool_calls : List String
deriving Repr

/-- One step of iterating the remote stream: either a chunk (with its list
of choice deltas, possibly absent/empty) or an exception raised while
producing it. -/
inductive ChunkOut
  | item (choices : List Delta)
  | raised (msg : String)

/-- The in-band marker yielded for a tool-call fragment. -/
def toolCallFragments (names : List String) : List String :=
  names.filterMap fun n =>
    if n = "" then none
    else some ("\n🔧 Calling function: " ++ n ++ "\n")

/-- Fragments yielded for one delta: its content when truthy, else tool-call
markers for its truthy function names. -/
def deltaFragments (d : Delta) : List String :=
  match d.content with
  | some s => if s ≠ "" then [s] else toolCallFragments d.tool_calls
  | none => toolCallFragments d.tool_calls

/-- Fragments yielded for one chunk: the first choice's delta is examined
when the choices list is nonempty, otherwise the chunk is skipped. -/
def chunkFragments (choices : List Delta) : List String :=
  match choices with
  | [] => []
  | d :: _ => deltaFragments d

/-- The content-head of the in-band fragment `_stream_completion` yields
when an exception escapes the streaming loop.  (In the source the glyph
before `Streaming Error` is a cross-mark emoji.) -/
def streamErrorHead : String := "❌ Streaming Error: "

/-- The streaming loop of `_stream_completion`: chunks are consumed in
order; an exception raised while producing a chunk is caught by the
surrounding `try`, one final in-band error fragment is yielded, and the
generator terminates. -/
def streamChunks : List ChunkOut → List String
  | [] => []
  | .item choices :: rest => chunkFragments choices ++ streamChunks rest
  | .raised msg :: _ => [streamErrorHead ++ msg]

/-! ### DeepSeekClient: retry with backoff -/

/-- The value produced by one call of the wrapped remote function, as
inspected by the validation in `_retry_with_backoff`: the call may raise, or
return `None`, a boolean, an object without a `choices` attribute, a
response object with a `choices` list (each choice modelled by its message
content), or a streaming iterator. -/
inductive PyVal
  | vRaise (msg : String)
  | vNone
  | vBool (b : Bool)
  | vNoChoices
  | vResp (choices : List String)
  | vStream (chunks : List ChunkOut)

/-- The per-attempt failure check of `_retry_with_backoff`: a raised
exception, a `None` result, and a boolean result always fail; when not
streaming, a result without a `choices` attribute or with an empty `choices`
list also fails.  Returns the error message of the raised `ValueError` (or
of the original exception), `none` on a valid attempt. -/
def attemptError (stream : Bool) : PyVal → Option String
  | .vRaise m => some m
  | .vNone => some "API returned None response"
  | .vBool b =>
      some ("API returned boolean: " ++ if b then "True" else "False")
  | .vNoChoices =>
      if stream then none else some "API response missing choices attribute"
  | .vStream _ =>
      if stream then none else some "API response missing choices attribute"
  | .vResp choices =>
      if stream then none
      else if choices.isEmpty then some "API response has empty choices"
      else none

/-- The content-head of the `MockResponse` built by
`_create_error_response`.  (In the source the glyph before `Error` is a
cross-mark emoji.) -/
def mockErrorHead : String := "❌ Error: "

/-- What `_retry_with_backoff` hands back: the validated result of a
successful attempt, or — after the final failed attempt — the
`_create_error_response` mock envelope carrying the last error's message
(the raw exception is never propagated). -/
inductive RetryResult
  | ok (value : PyVal)
  | envelope (content : String)

/-- The loop of `_retry_with_backoff`: `for attempt in range(max_retries + 1)`
tries the call, breaks out of the loop after a failure at
`attempt == max_retries`, and otherwise sleeps `retry_delay * 2 ** attempt`
before the next attempt.  `fuel` counts the remaining loop iterations (the
loop is entered with `max_retries + 1`, so fuel never runs out before the
break).  Returns the result, the number of attempts made, and the sleep
durations in order. -/
def retryAux (f : Nat → PyVal) (stream : Bool) (delay : ℚ)
    (maxRetries : Nat) : Nat → Nat → RetryResult × Nat × List ℚ
  | _, 0 => (.envelope mockErrorHead, 0, [])
  | attempt, fuel + 1 =>
    match attemptError stream (f attempt) with
    | none => (.ok (f attempt), 1, [])
    | some m =>
      if attempt = maxRetries then (.envelope (mockErrorHead ++ m), 1, [])
      else
        let r := retryAux f stream delay maxRetries (attempt + 1) fuel
        (r.1, r.2.1 + 1, delay * 2 ^ attempt :: r.2.2)

/-- `DeepSeekClient._retry_with_backoff`, from the first attempt. -/
def retryWithBackoff (f : Nat → PyVal) (stream : Bool) (delay : ℚ)
    (maxRetries : Nat) : RetryResult × Nat × List ℚ :=
  retryAux f stream delay maxRetries 0 (maxRetries + 1)

/-! ### DeepSeekClient: complete -/

/-- `DeepSeekClient._prepare_model_name`: `model_name = model or self.model`
— Python's `or` takes the caller's model name when it is truthy, and falls
back to the client default when it is `None` OR the empty string (falsy).
The `deepseek/` prefixing step is commented out in the source ("Try without
deepseek/ prefix first"), so no prefix is ever applied. -/
def prepareModelName (model : Option String) (selfModel : String) : String :=
  match model with
  | some m => if m = "" then selfModel else m
  | none => selfModel

/-- `DeepSeekClient._stream_completion`: obtains the stream through
`_retry_with_backoff` (with `stream=True` in the kwargs), then iterates it.
Iterating a non-iterator (in particular the `MockResponse` envelope returned
after exhausted retries) raises `TypeError`, which the surrounding `try`
also converts into one in-band error fragment. -/
def streamCompletion (f : Nat → PyVal) (delay : ℚ) (maxRetries : Nat) :
    List String :=
  match (retryWithBackoff f true delay maxRetries).1 with
  | .ok (.vStream chunks) => streamChunks chunks
  | .ok _ => [streamErrorHead ++ "object is not iterable"]
  | .envelope _ => [streamErrorHead ++ "MockResponse object is not iterable"]

/-- What `complete` returns: a lazy fragment stream, or the direct result of
the retried remote call. -/
inductive CompleteResult
  | streamed (fragments : List String)
  | direct (r : RetryResult)

/-- A call of `DeepSeekClient.complete`: the model name placed in the
transport payload and the returned value. -/
structure CompleteCall where
  modelUsed : String
  result : CompleteResult

/-- `DeepSeekClient.complete`: normalizes the model name via
`_prepare_model_name`, builds the payload, and dispatches on `stream`
(`stream` is forwarded in the kwargs, so the retry validation sees the same
flag). -/
def complete (modelArg : Option String) (selfModel : String) (stream : Bool)
    (f : Nat → PyVal) (delay : ℚ) (maxRetries : Nat) : CompleteCall :=
  let modelName := prepareModelName modelArg selfModel
  if stream then
    ⟨modelName, .streamed (streamCompletion f delay maxRetries)⟩
  else
    ⟨modelName, .direct (retryWithBackoff f stream delay maxRetries).1⟩

/-! ## Theorems -/

/-! ### Truncation (C1, C2, C9) -/

/-- A nonempty suffix of a list has the same last element. -/
lemma getLast?_eq_of_suffix {l₁ l₂ : List Msg} (h : l₁ <:+ l₂) (hne : l₁ ≠ []) :
    l₂.getLast? = l₁.getLast? := by
  obtain ⟨t, rfl⟩ := h
  exact List.getLast?_append_of_ne_nil t hne

/-- Consing onto a nonempty list does not change the last element. -/
lemma getLast?_cons_of_ne_nil {a : Msg} {l : List Msg} (h : l ≠ []) :
    (a :: l).getLast? = l.getLast? := by
  simpa using List.getLast?_append_of_ne_nil [a] h

/-- A Python slice `xs[i:]` with a non-positive index on a nonempty list is a
nonempty suffix keeping the last element. -/
lemma pySliceFrom_nonpos (xs : List Msg) (i : Int) (hi : i ≤ 0) (hx : xs ≠ []) :
    pySliceFrom xs i ≠ [] ∧ (pySliceFrom xs i).getLast? = xs.getLast? := by
  have hlen : 0 < xs.length := List.length_pos.mpr hx
  unfold pySliceFrom
  rcases lt_or_eq_of_le hi with hlt | heq
  · rw [if_pos hlt]
    have hd : (((xs.length : Int)) + i).toNat < xs.length := by omega
    have hne : xs.drop (((xs.length : Int) + i).toNat) ≠ [] := by
      intro hnil
      have := List.drop_eq_nil_iff.mp hnil
      omega
    exact ⟨hne, (getLast?_eq_of_suffix (List.drop_suffix _ _) hne).symm⟩
  · subst heq
    simpa using hx

/-- The slice used by truncation is a sublist of the original messages. -/
lemma pySliceFrom_subset (xs : List Msg) (i : Int) : ∀ m ∈ pySliceFrom xs i, m ∈ xs := by
  intro m hm
  unfold pySliceFrom at hm
  split at hm <;> exact (List.drop_suffix _ _).subset hm

/-- Truncation only keeps messages that were already present. -/
lemma truncateMessages_subset (maxLength : Nat) (messages : List Msg) :
    ∀ m ∈ truncateMessages maxLength messages, m ∈ messages := by
  intro m hm
  unfold truncateMessages at hm
  split at hm
  · exact hm
  · match messages, hm with
    | first :: rest, hm =>
      dsimp only at hm
      split at hm
      · rcases List.mem_cons.mp hm with h | h
        · exact h ▸ List.mem_cons_self _ _
        · exact pySliceFrom_subset _ _ _ h
      · exact pySliceFrom_subset _ _ _ hm

/-- C1: at `max_length = 1`, appending a `system` message and then a `user`
message leaves THREE stored messages, with the system message duplicated:
the slice `messages[-(1 - 1):]` is the whole list, so truncation prepends a
second copy of the system message instead of keeping one message. -/
theorem truncation_policy_failing_eval :
    addMessage 1 (addMessage 1 [] "system" "s" 0) "user" "a" 1
      = [⟨"system", "s", 0⟩, ⟨"system", "s", 0⟩, ⟨"user", "a", 1⟩] := by decide

/-- C2: at `max_length = 1`, after appending a `system` message and then a
`user` message, the stored message count is strictly greater than
`max_length`, so the bound invariant fails on the code. -/
theorem truncation_bound_failing_eval :
    1 < (addMessage 1 (addMessage 1 [] "system" "s" 0) "user" "a" 1).length := by decide

/-- C9: for any `max_length ≥ 1` and any prior state, after `add_message`
the stored list is nonempty and its last element is exactly the appended
message — truncation never removes the most recently appended message. -/
theorem add_message_keeps_last (maxLength : Nat) (h : 1 ≤ maxLength)
    (messages : List Msg) (role content : String) (t : Nat) :
    addMessage maxLength messages role content t ≠ [] ∧
    (addMessage maxLength messages role content t).getLast?
      = some ⟨role, content, t⟩ := by
  have hys : (messages ++ [(⟨role, content, t⟩ : Msg)]).getLast?
      = some ⟨role, content, t⟩ := by simp
  have hysne : messages ++ [(⟨role, content, t⟩ : Msg)] ≠ [] := by simp
  unfold addMessage truncateMessages
  split
  · exact ⟨hysne, hys⟩
  · match hm : messages ++ [(⟨role, content, t⟩ : Msg)], hysne, hys with
    | first :: rest, hysne, hys =>
      dsimp only
      split
      · have hslice := pySliceFrom_nonpos (first :: rest)
          (-((maxLength : Int) - 1)) (by omega) (by simp)
        refine ⟨by simp, ?_⟩
        rw [getLast?_cons_of_ne_nil hslice.1, hslice.2, hys]
      · have hslice := pySliceFrom_nonpos (first :: rest)
          (-(maxLength : Int)) (by omega) (by simp)
        exact ⟨hslice.1, hslice.2.trans hys⟩

/-- Witness for C9 at `max_length = 1`, one appended message. -/
theorem add_message_keeps_last_witness :
    addMessage 1 [] "user" "hi" 0 ≠ [] ∧
    (addMessage 1 [] "user" "hi" 0).getLast? = some ⟨"user", "hi", 0⟩ :=
  add_message_keeps_last 1 (by decide) [] "user" "hi" 0

/-! ### Ephemeral sessions (C8) -/

/-- An ephemeral session emits no file operation on any mutation, and
mutations keep it ephemeral. -/
lemma runSession_temp (cmds : List SessionCmd) :
    ∀ st : SessionSt, st.isTemp = true → st.sessionFile = none →
      (runSession st cmds).2 = [] := by
  induction cmds with
  | nil => intro st _ _; rfl
  | cons c cs ih =>
    intro st ht hf
    cases c with
    | add role content t =>
      simp only [runSession, addMessageOp, saveMessages, ht, hf,
        List.nil_append]
      exact ih _ rfl rfl
    | clearCmd fe =>
      simp only [runSession, clearOp, ht, hf, List.nil_append]
      exact ih _ rfl rfl

/-- C8: a session constructed with id `"temp"` performs no file operation at
construction, and none across any sequence of `add_message` / `clear`
calls. -/
theorem temp_session_no_file_ops (maxLength : Nat) (fileExists : Bool)
    (loaded : List Msg) (cmds : List SessionCmd) :
    (sessionInit "temp" maxLength fileExists loaded).2 = [] ∧
    (runSession (sessionInit "temp" maxLength fileExists loaded).1 cmds).2
      = [] := by
  refine ⟨rfl, runSession_temp cmds _ rfl rfl⟩

/-! ### Cancellation (C6) -/

/-- C6 counterexample: starting from a persisted session holding only the
system message, a turn with prompt `"hi"` interrupted during the completion
call leaves the user message of that turn in the persisted file — the
persisted state is not the pre-turn state, so part of the turn IS
persisted. -/
theorem cancellation_counterexample :
    (handleTurn 100 ⟨[⟨"system", "S", 0⟩], some [⟨"system", "S", 0⟩]⟩
        "hi" .interrupted 1 2).fileContent
      = some [⟨"system", "S", 0⟩, ⟨"user", "hi", 1⟩] ∧
    (handleTurn 100 ⟨[⟨"system", "S", 0⟩], some [⟨"system", "S", 0⟩]⟩
        "hi" .interrupted 1 2).fileContent
      ≠ some [⟨"system", "S", 0⟩] := by
  constructor <;> decide

/-- C6 amended: an interrupt during the completion call leaves the session
(memory and file) exactly as it was right after `make_messages` appended
the user message — the turn's user message is persisted, and nothing else
from the turn is: every stored message was already present before the turn
or is the turn's user message (in particular no assistant message, half
formed or complete, is added). -/
theorem cancellation_amended (maxLength : Nat) (st : HState) (prompt : String)
    (t1 t2 : Nat) (h : pyStrip prompt ≠ "") :
    handleTurn maxLength st prompt .interrupted t1 t2
      = addMessageH maxLength st "user" prompt t1 ∧
    ∀ m ∈ (handleTurn maxLength st prompt .interrupted t1 t2).messages,
      m ∈ st.messages ∨ m = ⟨"user", prompt, t1⟩ := by
  have he : handleTurn maxLength st prompt .interrupted t1 t2
      = addMessageH maxLength st "user" prompt t1 := by
    unfold handleTurn
    rw [if_neg h]
  refine ⟨he, ?_⟩
  intro m hm
  rw [he] at hm
  simp only [addMessageH] at hm
  unfold addMessage at hm
  have hsub := truncateMessages_subset maxLength
    (st.messages ++ [⟨"user", prompt, t1⟩]) m hm
  rcases List.mem_append.mp hsub with h1 | h2
  · exact Or.inl h1
  · exact Or.inr (by simpa using h2)

/-- Witness for C6 amended at a concrete interrupted turn. -/
theorem cancellation_amended_witness :
    handleTurn 100 ⟨[⟨"system", "S", 0⟩], some [⟨"system", "S", 0⟩]⟩
        "hi" .interrupted 1 2
      = addMessageH 100 ⟨[⟨"system", "S", 0⟩], some [⟨"system", "S", 0⟩]⟩
          "user" "hi" 1 ∧
    ∀ m ∈ (handleTurn 100 ⟨[⟨"system", "S", 0⟩], some [⟨"system", "S", 0⟩]⟩
        "hi" .interrupted 1 2).messages,
      m ∈ [(⟨"system", "S", 0⟩ : Msg)] ∨ m = ⟨"user", "hi", 1⟩ :=
  cancellation_amended 100 ⟨[⟨"system", "S", 0⟩], some [⟨"system", "S", 0⟩]⟩
    "hi" 1 2 (by decide)

/-! ### Corrupt session files (C5) -/

/-- C5 counterexample: a session file holding the valid JSON text `[]` —
invalid structured data for a session record — makes `_load_messages`
raise `AttributeError` out of the constructor instead of degrading to an
empty session. -/
theorem corrupt_file_counterexample :
    loadMessages (.decoded (.jarr [])) = .error "AttributeError" := rfl

/-- C5 amended: loading degrades to an empty message list without raising
when the file is unreadable, when its content fails JSON decoding, and when
it decodes to an object without a `"messages"` key; but (per the
counterexample) not when it decodes to a non-object JSON value. -/
theorem corrupt_file_amended :
    loadMessages .unreadable = .ok (.jarr []) ∧
    loadMessages .undecodable = .ok (.jarr []) ∧
    ∀ fields : List (String × Json), (∀ p ∈ fields, p.1 ≠ "messages") →
      loadMessages (.decoded (.jobj fields)) = .ok (.jarr []) := by
  refine ⟨rfl, rfl, ?_⟩
  intro fields hf
  simp only [loadMessages, objGet]
  have : fields.find? (fun p => p.1 == "messages") = none := by
    rw [List.find?_eq_none]
    intro p hp
    simpa using hf p hp
  rw [this]

/-- Witness for C5 amended on an object missing the `"messages"` key. -/
theorem corrupt_file_amended_witness :
    loadMessages (.decoded (.jobj [("session_id", Json.jstr "x")]))
      = .ok (.jarr []) :=
  corrupt_file_amended.2.2 [("session_id", Json.jstr "x")] (by
    intro p hp
    rw [List.mem_singleton] at hp
    subst hp
    decide)

/-! ### Retry and failure shaping (C3, C4) -/

/-- One unfolding step of the retry loop. -/
lemma retryAux_succ (f : Nat → PyVal) (stream : Bool) (delay : ℚ)
    (maxRetries attempt fuel : Nat) :
    retryAux f stream delay maxRetries attempt (fuel + 1)
      = match attemptError stream (f attempt) with
        | none => (.ok (f attempt), 1, [])
        | some m =>
          if attempt = maxRetries then
            (.envelope (mockErrorHead ++ m), 1, [])
          else
            let r := retryAux f stream delay maxRetries (attempt + 1) fuel
            (r.1, r.2.1 + 1, delay * 2 ^ attempt :: r.2.2) := rfl

/-- On an always-failing call, the retry loop entered at `attempt` with
`n + 1` iterations left makes `n + 1` attempts, returns the mock envelope
with the last error's message, and sleeps `delay * 2 ^ i` for
`i = attempt, ..., attempt + n - 1`. -/
lemma retryAux_all_fail (f : Nat → PyVal) (stream : Bool) (delay : ℚ)
    (maxRetries : Nat) (em : Nat → String)
    (h : ∀ i, i ≤ maxRetries → attemptError stream (f i) = some (em i)) :
    ∀ n attempt, attempt + (n + 1) = maxRetries + 1 →
      retryAux f stream delay maxRetries attempt (n + 1)
        = (.envelope (mockErrorHead ++ em maxRetries), n + 1,
           (List.range' attempt n).map (fun i => delay * 2 ^ i)) := by
  intro n
  induction n with
  | zero =>
    intro attempt ha
    have heq : attempt = maxRetries := by omega
    subst heq
    simp [retryAux, h attempt le_rfl]
  | succ n ih =>
    intro attempt ha
    have hne : attempt ≠ maxRetries := by omega
    have hle : attempt ≤ maxRetries := by omega
    have hr := ih (attempt + 1) (by omega)
    rw [retryAux_succ, h attempt hle]
    dsimp only
    rw [if_neg hne, hr]
    rfl

/-- C3: on a call failing at every attempt, `_retry_with_backoff` makes
exactly `max_retries + 1` attempts, and the sleeps between consecutive
failed attempts (none after the final one) are `retry_delay * 2 ^ attempt`
for `attempt = 0, ..., max_retries - 1`, i.e.
`retry_delay, 2*retry_delay, 4*retry_delay, ...`. -/
theorem retry_bound_backoff (f : Nat → PyVal) (stream : Bool) (delay : ℚ)
    (maxRetries : Nat) (em : Nat → String)
    (h : ∀ i, i ≤ maxRetries → attemptError stream (f i) = some (em i)) :
    (retryWithBackoff f stream delay maxRetries).2.1 = maxRetries + 1 ∧
    (retryWithBackoff f stream delay maxRetries).2.2
      = (List.range maxRetries).map (fun i => delay * 2 ^ i) := by
  have := retryAux_all_fail f stream delay maxRetries em h maxRetries 0
    (by omega)
  rw [retryWithBackoff, this, List.range_eq_range']
  exact ⟨rfl, rfl⟩

/-- Witness for C3: a call that always returns `None`, `max_retries = 2`,
`retry_delay = 1`: three attempts, sleeps `[1, 2]`. -/
theorem retry_bound_backoff_witness :
    (retryWithBackoff (fun _ => .vNone) false 1 2).2.1 = 2 + 1 ∧
    (retryWithBackoff (fun _ => .vNone) false 1 2).2.2
      = (List.range 2).map (fun i => (1 : ℚ) * 2 ^ i) :=
  retry_bound_backoff (fun _ => .vNone) false 1 2
    (fun _ => "API returned None response") (fun _ _ => rfl)

/-- C4: when every one of the `max_retries + 1` attempts of a non-streaming
`complete()` call fails (raise, `None`, boolean, missing or empty
`choices`), `complete()` returns the uniform mock-failure envelope — it
does not raise — and the envelope's content is the error head followed by
the LAST error's message, so it contains that message. -/
theorem failure_shaping (modelArg : Option String) (selfModel : String)
    (f : Nat → PyVal) (delay : ℚ) (maxRetries : Nat) (em : Nat → String)
    (h : ∀ i, i ≤ maxRetries → attemptError false (f i) = some (em i)) :
    (complete modelArg selfModel false f delay maxRetries).result
      = .direct (.envelope (mockErrorHead ++ em maxRetries)) := by
  have := retryAux_all_fail f false delay maxRetries em h maxRetries 0
    (by omega)
  simp only [complete, if_neg (Bool.false_ne_true ∘ id), retryWithBackoff]
  rw [this]

/-- Witness for C4: two attempts, the first raising `boom`, the second
returning a response with empty `choices`; the envelope carries the second
(last) error's message. -/
theorem failure_shaping_witness :
    (complete (some "deepseek-chat") "deepseek-chat" false
        (fun i => if i = 0 then .vRaise "boom" else .vResp []) 1 1).result
      = .direct (.envelope (mockErrorHead ++
          (fun i : Nat => if i = 0 then "boom"
            else "API response has empty choices") 1)) :=
  failure_shaping (some "deepseek-chat") "deepseek-chat"
    (fun i => if i = 0 then .vRaise "boom" else .vResp []) 1 1
    (fun i => if i = 0 then "boom" else "API response has empty choices")
    (by
      intro i hi
      interval_cases i <;> rfl)

/-! ### Model-name normalization (C7) -/

/-- C7 counterexample: for the caller model name `"deepseek-chat"`, which
omits the `deepseek/` prefix, `_prepare_model_name` returns it unchanged —
it does NOT become the prefixed `"deepseek/deepseek-chat"` the claim
requires. -/
theorem model_name_counterexample :
    prepareModelName (some "deepseek-chat") "deepseek-chat"
        = "deepseek-chat" ∧
    prepareModelName (some "deepseek-chat") "deepseek-chat"
        ≠ "deepseek/deepseek-chat" := by
  constructor <;> decide

/-- C7 amended: `complete` places the caller's model identifier in the
transport payload unchanged whenever it is truthy (non-empty); a `None` or
empty caller name falls back to the client's default model (Python's
`model or self.model`); no provider prefix is ever applied. -/
theorem model_name_passthrough (m selfModel : String) (stream : Bool)
    (f : Nat → PyVal) (delay : ℚ) (maxRetries : Nat) (hm : m ≠ "") :
    (complete (some m) selfModel stream f delay maxRetries).modelUsed = m ∧
    (complete none selfModel stream f delay maxRetries).modelUsed
      = selfModel ∧
    (complete (some "") selfModel stream f delay maxRetries).modelUsed
      = selfModel := by
  refine ⟨?_, ?_, ?_⟩ <;> cases stream <;>
    simp [complete, prepareModelName, hm]

/-- Witness for C7 amended: a truthy caller name passes through, `None` and
`""` fall back to the client default. -/
theorem model_name_passthrough_witness :
    (complete (some "deepseek-reasoner") "deepseek-chat" false
        (fun _ => .vNone) 1 0).modelUsed = "deepseek-reasoner" ∧
    (complete none "deepseek-chat" false
        (fun _ => .vNone) 1 0).modelUsed = "deepseek-chat" ∧
    (complete (some "") "deepseek-chat" false
        (fun _ => .vNone) 1 0).modelUsed = "deepseek-chat" :=
  model_name_passthrough "deepseek-reasoner" "deepseek-chat" false
    (fun _ => .vNone) 1 0 (by decide)

/-! ### In-band streaming errors (C10) -/

/-- The streaming loop turns a raise after a clean prefix of chunks into
the prefix's fragments followed by one in-band error fragment. -/
lemma streamChunks_append_raised (pre : List (List Delta)) (msg : String)
    (rest : List ChunkOut) :
    streamChunks (pre.map ChunkOut.item ++ ChunkOut.raised msg :: rest)
      = pre.flatMap chunkFragments ++ [streamErrorHead ++ msg] := by
  induction pre with
  | nil => rfl
  | cons c cs ih =>
    simp only [List.map_cons, List.cons_append, streamChunks, ih,
      List.flatMap_cons, List.append_assoc, List.append_eq]

/-- C10: if an exception is raised while producing/consuming the stream
(after any prefix of clean chunks), the generator returned by
`complete(stream=True)` does not propagate it: it yields the prefix's
fragments, then ONE final in-band fragment made of the error head and the
exception's message, and terminates. -/
theorem streaming_error_in_band (pre : List (List Delta)) (msg : String)
    (rest : List ChunkOut) (modelArg : Option String) (selfModel : String)
    (delay : ℚ) (maxRetries : Nat) :
    (complete modelArg selfModel true
        (fun _ => .vStream (pre.map ChunkOut.item ++ ChunkOut.raised msg :: rest))
        delay maxRetries).result
      = .streamed (pre.flatMap chunkFragments ++ [streamErrorHead ++ msg]) := by
  have hstream : streamCompletion
      (fun _ => .vStream (pre.map ChunkOut.item ++ ChunkOut.raised msg :: rest))
      delay maxRetries
        = streamChunks (pre.map ChunkOut.item ++ ChunkOut.raised msg :: rest) := by
    rw [streamCompletion, retryWithBackoff, retryAux_succ]
    rfl
  simp only [complete, hstream, streamChunks_append_raised, if_true]

end Deepshell
